import Mathlib

/-!
# Geometric functions of GLM (`glm/detail/func_geometric.inl`)

A shallow embedding of the generic (non-SIMD) code path of `func_geometric.inl`:
`length`, `distance`, `dot`, `cross`, `normalize`, `faceforward`, `reflect`, `refract`,
for plain scalars and for vectors of dimension 1 to 4.

The functions are templates over an element type `T` that the source restricts, by
`GLM_STATIC_ASSERT(std::numeric_limits<T>::is_iec559, ...)`, to IEEE-754 types.  The element
type is embedded as `Flt K`: the values of an ordered field `K` together with the IEEE special
values `NaN`, `+inf` and `-inf`, which are what an operation returns where the field has no
answer (the square root of a negative number, a division by zero, `inf - inf`, `0 * inf`).  The
square root of a non-negative element of `K` is a parameter `sqrtK : K → K` of the functions that
take one.

Arithmetic on the finite values of `Flt K` is exact: the rounding, overflow and underflow of the
IEEE operations are abstracted away.  The theorems about the code therefore use of this arithmetic
only what the IEEE operations share with it: the special values and their propagation, the
comparisons, `a * 1 = a`, `0 + a = a`, `a - a = 0`, commutativity of one operation, the symmetry
of the operations under negation, and the sign of a square, of a sum of non-negative values and of
a square root.  Identities that need exact finite arithmetic (associativity, distributivity, an
exact square root) are not stated of the code.  Where the rounding itself decides, `dot` is
evaluated on `Dbl`, a model of the binary64 addition and multiplication.
-/

namespace glm

/-! ## The element type -/

/-- Modelled from the spec: the element type of the vectors ("an IEEE-754 floating-point type",
declared in `type_float.hpp`, not part of this file): a finite value `fin x`, or one of the
special values `nan`, `pinf` (`+inf`), `ninf` (`-inf`). -/
inductive Flt (K : Type) where
  | nan : Flt K
  | pinf : Flt K
  | ninf : Flt K
  | fin (x : K) : Flt K
  deriving DecidableEq, Repr

section ElementType

variable {K : Type} [LinearOrderedField K]

/-- Modelled from the spec: unary negate of the element type. -/
def Flt.neg : Flt K → Flt K
  | .fin a => .fin (-a)
  | .pinf => .ninf
  | .ninf => .pinf
  | .nan => .nan

/-- Modelled from the spec: `+` of the element type; `inf + (-inf)` is `NaN`, and `NaN`
propagates.  On finite values it is the exact sum: rounding and overflow are not modelled. -/
def Flt.add : Flt K → Flt K → Flt K
  | .fin a, .fin b => .fin (a + b)
  | .fin _, .pinf => .pinf
  | .fin _, .ninf => .ninf
  | .pinf, .fin _ => .pinf
  | .pinf, .pinf => .pinf
  | .ninf, .fin _ => .ninf
  | .ninf, .ninf => .ninf
  | .pinf, .ninf => .nan
  | .ninf, .pinf => .nan
  | .nan, _ => .nan
  | .fin _, .nan => .nan
  | .pinf, .nan => .nan
  | .ninf, .nan => .nan

/-- Modelled from the spec: binary `-` of the element type, `a - b = a + (-b)`. -/
def Flt.sub (a b : Flt K) : Flt K := Flt.add a (Flt.neg b)

/-- The infinity of the given sign times a finite value: `NaN` for `0`, else an infinity whose
sign is the product of the signs. -/
def Flt.infTimes (positive : Bool) (b : K) : Flt K :=
  if b = 0 then .nan
  else if (0 < b) = positive then .pinf
  else .ninf

/-- Modelled from the spec: `*` of the element type; `0 * inf` is `NaN`, and `NaN` propagates
(in particular `NaN * 0` is `NaN`).  On finite values it is the exact product: rounding, overflow
and underflow are not modelled. -/
def Flt.mul : Flt K → Flt K → Flt K
  | .fin a, .fin b => .fin (a * b)
  | .fin a, .pinf => Flt.infTimes true a
  | .fin a, .ninf => Flt.infTimes false a
  | .pinf, .fin b => Flt.infTimes true b
  | .ninf, .fin b => Flt.infTimes false b
  | .pinf, .pinf => .pinf
  | .ninf, .ninf => .pinf
  | .pinf, .ninf => .ninf
  | .ninf, .pinf => .ninf
  | .nan, _ => .nan
  | .fin _, .nan => .nan
  | .pinf, .nan => .nan
  | .ninf, .nan => .nan

/-- Modelled from the spec: `/` of the element type; a nonzero finite value over `0` is an
infinity, `0 / 0` and `inf / inf` are `NaN`.  On finite values with a nonzero divisor it is the
exact quotient: rounding, overflow and underflow are not modelled. -/
def Flt.div : Flt K → Flt K → Flt K
  | .fin a, .fin b =>
      if b = 0 then (if a = 0 then .nan else if 0 < a then .pinf else .ninf)
      else .fin (a / b)
  | .fin _, .pinf => .fin 0
  | .fin _, .ninf => .fin 0
  | .pinf, .fin b => if 0 ≤ b then .pinf else .ninf
  | .ninf, .fin b => if 0 ≤ b then .ninf else .pinf
  | .pinf, .pinf => .nan
  | .pinf, .ninf => .nan
  | .ninf, .pinf => .nan
  | .ninf, .ninf => .nan
  | .nan, _ => .nan
  | .fin _, .nan => .nan
  | .pinf, .nan => .nan
  | .ninf, .nan => .nan

instance : Neg (Flt K) := ⟨Flt.neg⟩
instance : Add (Flt K) := ⟨Flt.add⟩
instance : Sub (Flt K) := ⟨Flt.sub⟩
instance : Mul (Flt K) := ⟨Flt.mul⟩
instance : Div (Flt K) := ⟨Flt.div⟩

/-- Modelled from the spec: the comparison `a < b` of the element type; false when either side
is `NaN`. -/
def Flt.lt : Flt K → Flt K → Bool
  | .fin a, .fin b => decide (a < b)
  | .fin _, .pinf => true
  | .ninf, .fin _ => true
  | .ninf, .pinf => true
  | _, _ => false

/-- Modelled from the spec: the comparison `a >= b` of the element type; false when either side
is `NaN`. -/
def Flt.ge : Flt K → Flt K → Bool
  | .fin a, .fin b => decide (b ≤ a)
  | .pinf, .fin _ => true
  | .pinf, .pinf => true
  | .pinf, .ninf => true
  | .fin _, .ninf => true
  | .ninf, .ninf => true
  | _, _ => false

/-- The conversion `static_cast<T>(b)` of a `bool`: `true` is `1`, `false` is `0`. -/
def Flt.ofBool (b : Bool) : Flt K := if b then .fin 1 else .fin 0

/-- Modelled from the spec: the primitive `sqrt` (`func_exponential.hpp` and `std::sqrt`, not
part of this file).  `sqrtK` is the square root on the non-negative elements of `K`; the square
root of a negative value is `NaN`. -/
def Flt.sqrt (sqrtK : K → K) : Flt K → Flt K
  | .fin a => if a < 0 then .nan else .fin (sqrtK a)
  | .pinf => .pinf
  | .ninf => .nan
  | .nan => .nan

/-- Modelled from the spec: the primitive `inversesqrt` (`func_exponential.hpp`, not part of this
file), `1 / sqrt(x)`; at `0` it is a "division producing infinity". -/
def Flt.inversesqrt (sqrtK : K → K) (x : Flt K) : Flt K := Flt.fin 1 / Flt.sqrt sqrtK x

/-- Modelled from the spec: the primitive `abs` (`func_common.hpp`, not part of this file). -/
def Flt.abs : Flt K → Flt K
  | .fin a => .fin |a|
  | .pinf => .pinf
  | .ninf => .pinf
  | .nan => .nan

/-- An element value that is `NaN` or compares `>= 0`. -/
def Flt.nonnegOrNan (x : Flt K) : Prop :=
  x = Flt.nan ∨ Flt.ge x (Flt.fin 0) = true

end ElementType

/-! ## The vector types -/

/-- The dimensions `D` for which `vec<D, T, P>` and `compute_dot` are defined: 1, 2, 3 and 4. -/
inductive Dim where
  | d1 : Dim
  | d2 : Dim
  | d3 : Dim
  | d4 : Dim
  deriving DecidableEq, Repr

/-- Modelled from the spec: `vec<1, T, P>` (a tuple of one component). -/
structure tvec1 (T : Type) where
  x : T
  deriving DecidableEq, Repr

/-- Modelled from the spec: `vec<2, T, P>` (`type_vec2.hpp`, not part of this file). -/
structure tvec2 (T : Type) where
  x : T
  y : T
  deriving DecidableEq, Repr

/-- Modelled from the spec: `vec<3, T, P>`, which the source also calls `tvec3<T, P>`. -/
structure tvec3 (T : Type) where
  x : T
  y : T
  z : T
  deriving DecidableEq, Repr

/-- Modelled from the spec: `vec<4, T, P>` (`type_vec4.hpp`, not part of this file). -/
structure tvec4 (T : Type) where
  x : T
  y : T
  z : T
  w : T
  deriving DecidableEq, Repr

/-- The type `vec<D, T, P>`.  The precision tag `P` carries no run-time state and is dropped. -/
@[reducible] def vec : Dim → Type → Type
  | .d1, T => tvec1 T
  | .d2, T => tvec2 T
  | .d3, T => tvec3 T
  | .d4, T => tvec4 T

/-- Apply a function to every component. -/
def vec.map {T U : Type} (f : T → U) : {D : Dim} → vec D T → vec D U
  | .d1, a => tvec1.mk (f (tvec1.x a))
  | .d2, a => tvec2.mk (f (tvec2.x a)) (f (tvec2.y a))
  | .d3, a => tvec3.mk (f (tvec3.x a)) (f (tvec3.y a)) (f (tvec3.z a))
  | .d4, a => tvec4.mk (f (tvec4.x a)) (f (tvec4.y a)) (f (tvec4.z a)) (f (tvec4.w a))

/-- Combine two vectors component by component. -/
def vec.zipWith {T : Type} (f : T → T → T) : {D : Dim} → vec D T → vec D T → vec D T
  | .d1, a, b => tvec1.mk (f (tvec1.x a) (tvec1.x b))
  | .d2, a, b => tvec2.mk (f (tvec2.x a) (tvec2.x b)) (f (tvec2.y a) (tvec2.y b))
  | .d3, a, b =>
      tvec3.mk (f (tvec3.x a) (tvec3.x b)) (f (tvec3.y a) (tvec3.y b)) (f (tvec3.z a) (tvec3.z b))
  | .d4, a, b =>
      tvec4.mk (f (tvec4.x a) (tvec4.x b)) (f (tvec4.y a) (tvec4.y b)) (f (tvec4.z a) (tvec4.z b))
        (f (tvec4.w a) (tvec4.w b))

/-- The vector whose components are all `s`: the constructor `vec<D, T, P>(s)`. -/
def vec.splat {T : Type} (s : T) : {D : Dim} → vec D T
  | .d1 => tvec1.mk s
  | .d2 => tvec2.mk s s
  | .d3 => tvec3.mk s s s
  | .d4 => tvec4.mk s s s s

section VectorOperators

variable {K : Type} [LinearOrderedField K] {D : Dim}

/-- A vector of elements of `K` as a vector of finite element values. -/
def vec.fin (v : vec D K) : vec D (Flt K) := vec.map Flt.fin v

/-- Modelled from the spec: the element-wise operator `a * b` of two vectors. -/
def vec.mul (a b : vec D (Flt K)) : vec D (Flt K) := vec.zipWith (fun s t => s * t) a b

/-- Modelled from the spec: the element-wise operator `a - b` of two vectors. -/
def vec.sub (a b : vec D (Flt K)) : vec D (Flt K) := vec.zipWith (fun s t => s - t) a b

/-- Modelled from the spec: the unary negate `-a` of a vector. -/
def vec.neg (a : vec D (Flt K)) : vec D (Flt K) := vec.map (fun s => -s) a

/-- Modelled from the spec: the operator `v * s` of a vector and a scalar, `v.x * s` in every
component. -/
def vec.mulScalar (v : vec D (Flt K)) (s : Flt K) : vec D (Flt K) := vec.map (fun t => t * s) v

/-- Modelled from the spec: the operator `s * v` of a scalar and a vector, `s * v.x` in every
component. -/
def vec.scalarMul (s : Flt K) (v : vec D (Flt K)) : vec D (Flt K) := vec.map (fun t => s * t) v

/-- The sum of the products of the components of two vectors over `K`, associated the way the
specialisations of `compute_dot` associate it; the value of `dot` on finite vectors. -/
def vec.dotK : vec D K → vec D K → K :=
  match D with
  | .d1 => fun a b => tvec1.x a * tvec1.x b
  | .d2 => fun a b => tvec2.x a * tvec2.x b + tvec2.y a * tvec2.y b
  | .d3 => fun a b => tvec3.x a * tvec3.x b + tvec3.y a * tvec3.y b + tvec3.z a * tvec3.z b
  | .d4 => fun a b =>
      (tvec4.x a * tvec4.x b + tvec4.y a * tvec4.y b)
        + (tvec4.z a * tvec4.z b + tvec4.w a * tvec4.w b)

end VectorOperators

/-! ## The functions of `func_geometric.inl` -/

section Geometric

variable {K : Type} [LinearOrderedField K]

/-- The four specialisations `detail::compute_dot<vec<D, T, P>, T, Aligned>::call`,
`D = 1, 2, 3, 4` (lines 34-71). -/
def detail.compute_dot.call : {D : Dim} → vec D (Flt K) → vec D (Flt K) → Flt K
  | .d1, a, b => tvec1.x a * tvec1.x b
  | .d2, a, b =>
      let tmp : tvec2 (Flt K) := vec.mul a b
      tmp.x + tmp.y
  | .d3, a, b =>
      let tmp : tvec3 (Flt K) := vec.mul a b
      tmp.x + tmp.y + tmp.z
  | .d4, a, b =>
      let tmp : tvec4 (Flt K) := vec.mul a b
      (tmp.x + tmp.y) + (tmp.z + tmp.w)

/-- The scalar overload `dot(T x, T y)` (lines 163-168). -/
def genType.dot (x y : Flt K) : Flt K := x * y

/-- The vector overload `dot(vec<D, T, P> const & x, vec<D, T, P> const & y)` (lines 170-175). -/
def dot {D : Dim} (x y : vec D (Flt K)) : Flt K := detail.compute_dot.call x y

/-- The template `detail::compute_length::call` (lines 13-20). -/
def detail.compute_length.call (sqrtK : K → K) {D : Dim} (v : vec D (Flt K)) : Flt K :=
  Flt.sqrt sqrtK (dot v v)

/-- The scalar overload `length(genType x)` (lines 131-137). -/
def genType.length (x : Flt K) : Flt K := Flt.abs x

/-- The vector overload `length(vecType<D, T, P> const & v)` (lines 139-145). -/
def length (sqrtK : K → K) {D : Dim} (v : vec D (Flt K)) : Flt K :=
  detail.compute_length.call sqrtK v

/-- The template `detail::compute_distance::call` (lines 22-29). -/
def detail.compute_distance.call (sqrtK : K → K) {D : Dim} (p0 p1 : vec D (Flt K)) : Flt K :=
  length sqrtK (vec.sub p1 p0)

/-- The scalar overload `distance(genType const & p0, genType const & p1)` (lines 148-154). -/
def genType.distance (p0 p1 : Flt K) : Flt K := genType.length (p1 - p0)

/-- The vector overload `distance(vecType<D, T, P> const & p0, vecType<D, T, P> const & p1)`
(lines 156-160). -/
def distance (sqrtK : K → K) {D : Dim} (p0 p1 : vec D (Flt K)) : Flt K :=
  detail.compute_distance.call sqrtK p0 p1

/-- The template `detail::compute_cross::call` (lines 73-85). -/
def detail.compute_cross.call (x y : tvec3 (Flt K)) : tvec3 (Flt K) :=
  tvec3.mk
    (x.y * y.z - y.y * x.z)
    (x.z * y.x - y.z * x.x)
    (x.x * y.y - y.x * x.y)

/-- The function `cross(tvec3<T, P> const & x, tvec3<T, P> const & y)` (lines 185-189). -/
def cross (x y : tvec3 (Flt K)) : tvec3 (Flt K) := detail.compute_cross.call x y

/-- The template `detail::compute_normalize::call` (lines 87-96). -/
def detail.compute_normalize.call (sqrtK : K → K) {D : Dim} (v : vec D (Flt K)) :
    vec D (Flt K) :=
  vec.mulScalar v (Flt.inversesqrt sqrtK (dot v v))

/-- The scalar overload `normalize(genType const & x)` (lines 192-198). -/
def genType.normalize (x : Flt K) : Flt K :=
  if Flt.lt x (Flt.fin 0) then Flt.fin (-1) else Flt.fin 1

/-- The vector overload `normalize(vecType<D, T, P> const & x)` (lines 200-206). -/
def normalize (sqrtK : K → K) {D : Dim} (x : vec D (Flt K)) : vec D (Flt K) :=
  detail.compute_normalize.call sqrtK x

/-- The template `detail::compute_faceforward::call` (lines 98-107). -/
def detail.compute_faceforward.call {D : Dim} (N I Nref : vec D (Flt K)) : vec D (Flt K) :=
  if Flt.lt (dot Nref I) (Flt.fin 0) then N else vec.neg N

/-- The scalar overload `faceforward(genType const & N, genType const & I, genType const & Nref)`
(lines 209-213). -/
def genType.faceforward (N I Nref : Flt K) : Flt K :=
  if Flt.lt (genType.dot Nref I) (Flt.fin 0) then N else -N

/-- The vector overload `faceforward` (lines 215-219). -/
def faceforward {D : Dim} (N I Nref : vec D (Flt K)) : vec D (Flt K) :=
  detail.compute_faceforward.call N I Nref

/-- The template `detail::compute_reflect::call` (lines 109-116). -/
def detail.compute_reflect.call {D : Dim} (I N : vec D (Flt K)) : vec D (Flt K) :=
  vec.sub I (vec.mulScalar (vec.mulScalar N (dot N I)) (Flt.fin 2))

/-- The scalar overload `reflect(genType const & I, genType const & N)` (lines 222-226). -/
def genType.reflect (I N : Flt K) : Flt K := I - N * genType.dot N I * Flt.fin 2

/-- The vector overload `reflect` (lines 228-232). -/
def reflect {D : Dim} (I N : vec D (Flt K)) : vec D (Flt K) := detail.compute_reflect.call I N

/-- The local `k` of `refract` (lines 124 and 240), from `dotValue = dot(N, I)`. -/
def detail.compute_refract.k (dotValue eta : Flt K) : Flt K :=
  Flt.fin 1 - eta * eta * (Flt.fin 1 - dotValue * dotValue)

/-- The template `detail::compute_refract::call` (lines 118-127). -/
def detail.compute_refract.call (sqrtK : K → K) {D : Dim} (I N : vec D (Flt K)) (eta : Flt K) :
    vec D (Flt K) :=
  let dotValue : Flt K := dot N I
  let k : Flt K := detail.compute_refract.k dotValue eta
  vec.mulScalar
    (vec.sub (vec.scalarMul eta I) (vec.scalarMul (eta * dotValue + Flt.sqrt sqrtK k) N))
    (Flt.ofBool (Flt.ge k (Flt.fin 0)))

/-- The scalar overload `refract(genType const & I, genType const & N, genType eta)`
(lines 235-242). -/
def genType.refract (sqrtK : K → K) (I N eta : Flt K) : Flt K :=
  let dotValue : Flt K := genType.dot N I
  let k : Flt K := detail.compute_refract.k dotValue eta
  (eta * I - (eta * dotValue + Flt.sqrt sqrtK k) * N) * Flt.ofBool (Flt.ge k (Flt.fin 0))

/-- The vector overload `refract(vecType<D, T, P> const & I, vecType<D, T, P> const & N, T eta)`
(lines 244-249). -/
def refract (sqrtK : K → K) {D : Dim} (I N : vec D (Flt K)) (eta : Flt K) : vec D (Flt K) :=
  detail.compute_refract.call sqrtK I N eta

end Geometric

/-! ## The element type `double`, with its rounding -/

/-- Modelled from the spec: the values of the element type `double` (IEEE-754 binary64): `fin m e`
is the number `m * 2^e`, kept in the form that has `2^52 <= |m| < 2^53` (normal) or `e = -1074`
(subnormal and zero).  The sign of zero is not modelled. -/
inductive Dbl where
  | nan : Dbl
  | pinf : Dbl
  | ninf : Dbl
  | fin (m : Int) (e : Int) : Dbl
  deriving DecidableEq, Repr

/-- The position of the leading binary digit of `n`, found by halving at most `fuel` times: with
`l = Dbl.log2Aux n n`, `2^l <= n < 2^(l + 1)` for `n > 0`. -/
def Dbl.log2Aux : Nat → Nat → Nat
  | 0, _ => 0
  | fuel + 1, n => if n ≤ 1 then 0 else Dbl.log2Aux fuel (n / 2) + 1

/-- Modelled from the spec: the `double` nearest to the exact number `m * 2^e`, ties to the even
mantissa (the IEEE-754 default rounding), an infinity when the rounded number is `2^1024` or
more in magnitude. -/
def Dbl.round (m e : Int) : Dbl :=
  if m = 0 then Dbl.fin 0 (-1074)
  else
    let n : Nat := m.natAbs
    let top : Int := e + Int.ofNat (Dbl.log2Aux n n)
    let q : Int := max (top - 52) (-1074)
    let k : Nat :=
      if q ≤ e then n * 2 ^ (e - q).toNat
      else
        let s : Nat := (q - e).toNat
        let d : Nat := n / 2 ^ s
        let r : Nat := n % 2 ^ s
        let half : Nat := 2 ^ (s - 1)
        if half < r ∨ (r = half ∧ d % 2 = 1) then d + 1 else d
    let k2 : Nat := if k = 2 ^ 53 then 2 ^ 52 else k
    let q2 : Int := if k = 2 ^ 53 then q + 1 else q
    if 2 ^ 52 ≤ k2 ∧ 1023 < q2 + 52 then (if 0 < m then Dbl.pinf else Dbl.ninf)
    else Dbl.fin (if 0 < m then Int.ofNat k2 else -Int.ofNat k2) q2

/-- Modelled from the spec: `+` of `double`, the exact sum rounded (adding zero rounds the other
operand, which leaves a `double` unchanged). -/
def Dbl.add : Dbl → Dbl → Dbl
  | .fin m1 e1, .fin m2 e2 =>
      if m1 = 0 then Dbl.round m2 e2
      else if m2 = 0 then Dbl.round m1 e1
      else
        Dbl.round
          (m1 * Int.ofNat (2 ^ (e1 - min e1 e2).toNat)
            + m2 * Int.ofNat (2 ^ (e2 - min e1 e2).toNat))
          (min e1 e2)
  | .fin _ _, .pinf => .pinf
  | .fin _ _, .ninf => .ninf
  | .pinf, .fin _ _ => .pinf
  | .pinf, .pinf => .pinf
  | .ninf, .fin _ _ => .ninf
  | .ninf, .ninf => .ninf
  | .pinf, .ninf => .nan
  | .ninf, .pinf => .nan
  | .nan, _ => .nan
  | .fin _ _, .nan => .nan
  | .pinf, .nan => .nan
  | .ninf, .nan => .nan

/-- Modelled from the spec: `*` of `double`, the exact product rounded. -/
def Dbl.mul : Dbl → Dbl → Dbl
  | .fin m1 e1, .fin m2 e2 => Dbl.round (m1 * m2) (e1 + e2)
  | .fin m _, .pinf => if m = 0 then .nan else if 0 < m then .pinf else .ninf
  | .fin m _, .ninf => if m = 0 then .nan else if 0 < m then .ninf else .pinf
  | .pinf, .fin m _ => if m = 0 then .nan else if 0 < m then .pinf else .ninf
  | .ninf, .fin m _ => if m = 0 then .nan else if 0 < m then .ninf else .pinf
  | .pinf, .pinf => .pinf
  | .ninf, .ninf => .pinf
  | .pinf, .ninf => .ninf
  | .ninf, .pinf => .ninf
  | .nan, _ => .nan
  | .fin _ _, .nan => .nan
  | .pinf, .nan => .nan
  | .ninf, .nan => .nan

instance : Add Dbl := ⟨Dbl.add⟩
instance : Mul Dbl := ⟨Dbl.mul⟩

/-- The four specialisations `detail::compute_dot<vec<D, T, P>, T, Aligned>::call` (lines 34-71)
as the template is written, for an arbitrary element type `T` with `+` and `*`. -/
def detail.compute_dot.callT {T : Type} [Add T] [Mul T] : {D : Dim} → vec D T → vec D T → T
  | .d1, a, b => tvec1.x a * tvec1.x b
  | .d2, a, b =>
      let tmp : tvec2 T := vec.zipWith (fun s t => s * t) (D := Dim.d2) a b
      tmp.x + tmp.y
  | .d3, a, b =>
      let tmp : tvec3 T := vec.zipWith (fun s t => s * t) (D := Dim.d3) a b
      tmp.x + tmp.y + tmp.z
  | .d4, a, b =>
      let tmp : tvec4 T := vec.zipWith (fun s t => s * t) (D := Dim.d4) a b
      (tmp.x + tmp.y) + (tmp.z + tmp.w)

/-! ## Arithmetic of the element type -/

section ElementLemmas

variable {K : Type} [LinearOrderedField K]

@[simp] theorem Flt.fin_add_fin (a b : K) : Flt.fin a + Flt.fin b = Flt.fin (a + b) := rfl

@[simp] theorem Flt.fin_mul_fin (a b : K) : Flt.fin a * Flt.fin b = Flt.fin (a * b) := rfl

@[simp] theorem Flt.neg_fin (a : K) : -Flt.fin a = Flt.fin (-a) := rfl

@[simp] theorem Flt.fin_sub_fin (a b : K) : Flt.fin a - Flt.fin b = Flt.fin (a - b) := by
  show Flt.fin (a + -b) = Flt.fin (a - b)
  rw [sub_eq_add_neg]

@[simp] theorem Flt.nan_add (a : Flt K) : Flt.nan + a = Flt.nan := rfl

@[simp] theorem Flt.add_nan (a : Flt K) : a + Flt.nan = Flt.nan := by cases a <;> rfl

@[simp] theorem Flt.nan_mul (a : Flt K) : Flt.nan * a = Flt.nan := rfl

@[simp] theorem Flt.mul_nan (a : Flt K) : a * Flt.nan = Flt.nan := by cases a <;> rfl

@[simp] theorem Flt.neg_nan : -(Flt.nan : Flt K) = Flt.nan := rfl

@[simp] theorem Flt.nan_sub (a : Flt K) : Flt.nan - a = Flt.nan := rfl

@[simp] theorem Flt.sub_nan (a : Flt K) : a - Flt.nan = Flt.nan := by cases a <;> rfl

@[simp] theorem Flt.lt_fin_fin (a b : K) : Flt.lt (Flt.fin a) (Flt.fin b) = decide (a < b) := rfl

@[simp] theorem Flt.ge_fin_fin (a b : K) : Flt.ge (Flt.fin a) (Flt.fin b) = decide (b ≤ a) := rfl

@[simp] theorem Flt.sqrt_fin (sqrtK : K → K) (a : K) :
    Flt.sqrt sqrtK (Flt.fin a) = if a < 0 then Flt.nan else Flt.fin (sqrtK a) := rfl

@[simp] theorem Flt.ofBool_true : (Flt.ofBool true : Flt K) = Flt.fin 1 := rfl

@[simp] theorem Flt.ofBool_false : (Flt.ofBool false : Flt K) = Flt.fin 0 := rfl

/-- Multiplying by `1` changes no value, special or finite. -/
theorem Flt.mul_fin_one (a : Flt K) : a * Flt.fin 1 = a := by
  cases a with
  | fin x => simp
  | nan => rfl
  | pinf => show Flt.infTimes true (1 : K) = Flt.pinf; simp [Flt.infTimes]
  | ninf => show Flt.infTimes false (1 : K) = Flt.ninf; simp [Flt.infTimes]

/-- A value below zero has no square root: the result is `NaN`. -/
theorem Flt.sqrt_of_lt_zero (sqrtK : K → K) (k : Flt K) (h : Flt.lt k (Flt.fin 0) = true) :
    Flt.sqrt sqrtK k = Flt.nan := by
  cases k with
  | fin x => simp at h; simp [h]
  | nan => rfl
  | pinf => simp [Flt.lt] at h
  | ninf => rfl

theorem Flt.mul_swap (a b : Flt K) : a * b = b * a := by
  cases a <;> cases b <;> first | rfl | exact congrArg Flt.fin (mul_comm _ _)

theorem Flt.sub_eq_neg_sub (a b : Flt K) : a - b = -(b - a) := by
  cases a <;> cases b <;> first | rfl | simp

theorem Flt.neg_mul_neg_self (a : Flt K) : -a * -a = a * a := by
  cases a <;> first | rfl | simp

theorem Flt.sub_mul_self_swap (a b : Flt K) : (a - b) * (a - b) = (b - a) * (b - a) := by
  rw [Flt.sub_eq_neg_sub a b, Flt.neg_mul_neg_self]

theorem Flt.abs_neg_eq (a : Flt K) : Flt.abs (-a) = Flt.abs a := by
  cases a <;> first | rfl | exact congrArg Flt.fin (abs_neg _)

theorem rat_sqrt_one : Rat.sqrt 1 = 1 := by simp [Rat.sqrt]

theorem rat_sqrt_twenty_five : Rat.sqrt 25 = 5 := by
  rw [show (25 : ℚ) = 5 * 5 by norm_num, Rat.sqrt_eq]
  norm_num

theorem Flt.neg_mul_eq (a b : Flt K) : -a * b = -(a * b) := by
  cases a with
  | nan => rfl
  | fin x =>
    cases b with
    | nan => rfl
    | fin y => exact congrArg Flt.fin (neg_mul x y)
    | pinf =>
      show Flt.infTimes true (-x) = Flt.neg (Flt.infTimes true x)
      rcases lt_trichotomy x 0 with h | h | h
      · have h1 : ¬ (0 < x) := not_lt.mpr h.le
        simp [Flt.infTimes, h.ne, h, h1, Flt.neg]
      · subst h
        simp [Flt.infTimes, Flt.neg]
      · have h1 : ¬ (x < 0) := not_lt.mpr h.le
        simp [Flt.infTimes, h.ne', h, h1, Flt.neg]
    | ninf =>
      show Flt.infTimes false (-x) = Flt.neg (Flt.infTimes false x)
      rcases lt_trichotomy x 0 with h | h | h
      · have h1 : ¬ (0 < x) := not_lt.mpr h.le
        simp [Flt.infTimes, h.ne, h, h1, Flt.neg]
      · subst h
        simp [Flt.infTimes, Flt.neg]
      · have h1 : ¬ (x < 0) := not_lt.mpr h.le
        simp [Flt.infTimes, h.ne', h, h1, Flt.neg]
  | pinf =>
    cases b with
    | nan => rfl
    | fin y =>
      show Flt.infTimes false y = Flt.neg (Flt.infTimes true y)
      rcases lt_trichotomy y 0 with h | h | h
      · have h1 : ¬ (0 < y) := not_lt.mpr h.le
        simp [Flt.infTimes, h.ne, h1, Flt.neg]
      · subst h
        simp [Flt.infTimes, Flt.neg]
      · simp [Flt.infTimes, h.ne', h, Flt.neg]
    | pinf => rfl
    | ninf => rfl
  | ninf =>
    cases b with
    | nan => rfl
    | fin y =>
      show Flt.infTimes true y = Flt.neg (Flt.infTimes false y)
      rcases lt_trichotomy y 0 with h | h | h
      · have h1 : ¬ (0 < y) := not_lt.mpr h.le
        simp [Flt.infTimes, h.ne, h1, Flt.neg]
      · subst h
        simp [Flt.infTimes, Flt.neg]
      · simp [Flt.infTimes, h.ne', h, Flt.neg]
    | pinf => rfl
    | ninf => rfl

theorem Flt.neg_add_eq (a b : Flt K) : -a + -b = -(a + b) := by
  cases a <;> cases b <;> first | rfl | exact congrArg Flt.fin (neg_add _ _).symm

theorem Flt.ge_zero_of_lt_zero (c : Flt K) (h : Flt.lt c (Flt.fin 0) = true) :
    Flt.ge (Flt.fin 0) c = true := by
  cases c with
  | nan => simp [Flt.lt] at h
  | pinf => simp [Flt.lt] at h
  | ninf => rfl
  | fin x =>
    simp only [Flt.lt_fin_fin, decide_eq_true_eq] at h
    simp only [Flt.ge_fin_fin, decide_eq_true_eq]
    exact h.le

theorem Flt.ge_zero_neg_of_not_lt_zero (c : Flt K) (hn : c ≠ Flt.nan)
    (h : Flt.lt c (Flt.fin 0) = false) : Flt.ge (Flt.fin 0) (-c) = true := by
  cases c with
  | nan => exact absurd rfl hn
  | pinf => rfl
  | ninf => simp [Flt.lt] at h
  | fin x =>
    simp only [Flt.lt_fin_fin, decide_eq_false_iff_not, not_lt] at h
    simp only [Flt.neg_fin, Flt.ge_fin_fin, decide_eq_true_eq]
    linarith

theorem Flt.mul_self_nonnegOrNan (a : Flt K) : Flt.nonnegOrNan (a * a) := by
  cases a with
  | nan => exact Or.inl rfl
  | pinf => exact Or.inr rfl
  | ninf => exact Or.inr rfl
  | fin x =>
    refine Or.inr ?_
    simp only [Flt.fin_mul_fin, Flt.ge_fin_fin, decide_eq_true_eq]
    exact mul_self_nonneg x

theorem Flt.add_nonnegOrNan (a b : Flt K) (ha : Flt.nonnegOrNan a) (hb : Flt.nonnegOrNan b) :
    Flt.nonnegOrNan (a + b) := by
  rcases ha with ha | ha
  · subst ha
    exact Or.inl rfl
  rcases hb with hb | hb
  · subst hb
    exact Or.inl (Flt.add_nan a)
  cases a with
  | nan => exact Or.inl rfl
  | ninf => simp [Flt.ge] at ha
  | pinf =>
    cases b with
    | nan => exact Or.inl rfl
    | ninf => simp [Flt.ge] at hb
    | pinf => exact Or.inr rfl
    | fin y => exact Or.inr rfl
  | fin x =>
    cases b with
    | nan => exact Or.inl rfl
    | ninf => simp [Flt.ge] at hb
    | pinf => exact Or.inr rfl
    | fin y =>
      refine Or.inr ?_
      simp only [Flt.ge_fin_fin, decide_eq_true_eq] at ha hb
      simp only [Flt.fin_add_fin, Flt.ge_fin_fin, decide_eq_true_eq]
      exact add_nonneg ha hb

theorem Flt.sqrt_nonnegOrNan (sqrtK : K → K) (hs0 : ∀ x : K, 0 ≤ x → 0 ≤ sqrtK x) (a : Flt K) :
    Flt.nonnegOrNan (Flt.sqrt sqrtK a) := by
  cases a with
  | nan => exact Or.inl rfl
  | pinf => exact Or.inr rfl
  | ninf => exact Or.inl rfl
  | fin x =>
    by_cases hx : x < 0
    · left
      simp [hx]
    · right
      simp only [Flt.sqrt_fin, hx, if_false, Flt.ge_fin_fin, decide_eq_true_eq]
      exact hs0 x (not_lt.mp hx)

theorem rat_sqrt_zero : Rat.sqrt 0 = 0 := by simp [Rat.sqrt]

end ElementLemmas

/-! ## Vectors of finite values -/

section VectorLemmas

variable {K : Type} [LinearOrderedField K]

theorem vec.mulScalar_one {D : Dim} (v : vec D (Flt K)) : vec.mulScalar v (Flt.fin 1) = v := by
  cases D <;> simp [vec.mulScalar, vec.map, Flt.mul_fin_one]

theorem dot_fin {D : Dim} (a b : vec D K) :
    dot (vec.fin a) (vec.fin b) = Flt.fin (vec.dotK a b) := by
  cases D <;> rfl

theorem vec.sub_fin {D : Dim} (a b : vec D K) :
    vec.sub (vec.fin a) (vec.fin b) = vec.fin (vec.zipWith (fun s t => s - t) a b) := by
  cases D <;> simp [vec.sub, vec.fin, vec.zipWith, vec.map]

theorem vec.dotK_self_nonneg {D : Dim} (v : vec D K) : 0 ≤ vec.dotK v v := by
  cases D
  · exact mul_self_nonneg _
  · exact add_nonneg (mul_self_nonneg _) (mul_self_nonneg _)
  · exact add_nonneg (add_nonneg (mul_self_nonneg _) (mul_self_nonneg _)) (mul_self_nonneg _)
  · exact add_nonneg (add_nonneg (mul_self_nonneg _) (mul_self_nonneg _))
      (add_nonneg (mul_self_nonneg _) (mul_self_nonneg _))

/-- On finite vectors `distance` is the square root of the sum of squares of `p1 - p0`. -/
theorem distance_fin (sqrtK : K → K) {D : Dim} (p0 p1 : vec D K) :
    distance sqrtK (vec.fin p0) (vec.fin p1)
      = Flt.fin (sqrtK (vec.dotK (vec.zipWith (fun s t => s - t) p1 p0)
          (vec.zipWith (fun s t => s - t) p1 p0))) := by
  simp only [distance, detail.compute_distance.call, length, detail.compute_length.call,
    vec.sub_fin, dot_fin, Flt.sqrt_fin]
  rw [if_neg (not_lt.mpr (vec.dotK_self_nonneg _))]

theorem vec.dotK_sub_self {D : Dim} (a : vec D K) :
    vec.dotK (vec.zipWith (fun s t => s - t) a a) (vec.zipWith (fun s t => s - t) a a) = 0 := by
  cases D <;> simp [vec.dotK, vec.zipWith]

/-- Negating the first vector negates `dot`, for all element values. -/
theorem dot_neg_left {D : Dim} (N I : vec D (Flt K)) : dot (vec.neg N) I = -dot N I := by
  cases D <;>
    simp only [dot, detail.compute_dot.call, vec.mul, vec.neg, vec.zipWith, vec.map,
      Flt.neg_mul_eq, Flt.neg_add_eq]

theorem dot_self_nonnegOrNan {D : Dim} (v : vec D (Flt K)) : Flt.nonnegOrNan (dot v v) := by
  cases D
  · exact Flt.mul_self_nonnegOrNan _
  · exact Flt.add_nonnegOrNan _ _ (Flt.mul_self_nonnegOrNan _) (Flt.mul_self_nonnegOrNan _)
  · exact Flt.add_nonnegOrNan _ _
      (Flt.add_nonnegOrNan _ _ (Flt.mul_self_nonnegOrNan _) (Flt.mul_self_nonnegOrNan _))
      (Flt.mul_self_nonnegOrNan _)
  · exact Flt.add_nonnegOrNan _ _
      (Flt.add_nonnegOrNan _ _ (Flt.mul_self_nonnegOrNan _) (Flt.mul_self_nonnegOrNan _))
      (Flt.add_nonnegOrNan _ _ (Flt.mul_self_nonnegOrNan _) (Flt.mul_self_nonnegOrNan _))

/-- On `Flt K` the embedding `call` is the template `callT`. -/
theorem compute_dot_call_eq_callT {D : Dim} (a b : vec D (Flt K)) :
    detail.compute_dot.call a b = detail.compute_dot.callT a b := by
  cases D <;> rfl

end VectorLemmas

/-! ## The claims -/

section Claims

variable {K : Type} [LinearOrderedField K]

/-- C1 (refuted on the code): whenever `k = 1 - eta^2 * (1 - dot(N,I)^2)` is below zero,
`refract(I, N, eta)` is not the zero vector: `sqrt(k)` is `NaN`, the `NaN` reaches every
component of `eta * I - (eta * dotValue + sqrt(k)) * N`, and the final multiplication by
`static_cast<T>(k >= 0) = 0` leaves it `NaN`.  Every component of the result is `NaN`, for
vectors of each dimension 1 to 4. -/
theorem refract_negative_k_is_nan (sqrtK : K → K) {D : Dim} (I N : vec D (Flt K)) (eta : Flt K)
    (hk : Flt.lt (detail.compute_refract.k (dot N I) eta) (Flt.fin 0) = true) :
    refract sqrtK I N eta = vec.splat Flt.nan ∧
      refract sqrtK I N eta ≠ vec.splat (Flt.fin 0) := by
  have h : refract sqrtK I N eta = vec.splat Flt.nan := by
    cases D <;>
      simp [refract, detail.compute_refract.call, Flt.sqrt_of_lt_zero sqrtK _ hk, vec.mulScalar,
        vec.sub, vec.scalarMul, vec.map, vec.zipWith, vec.splat]
  refine ⟨h, ?_⟩
  rw [h]
  cases D <;> (intro h0; injection h0 with h0; cases h0)

/-- Witness of C1 at `I = (1,0)`, `N = (0,1)`, `eta = 2`, where `k = -3`: the result is
`(NaN, NaN)`. -/
theorem refract_negative_k_is_nan_witness :
    Flt.lt (detail.compute_refract.k
        (dot (D := Dim.d2) (K := ℚ) ⟨Flt.fin 0, Flt.fin 1⟩ ⟨Flt.fin 1, Flt.fin 0⟩)
        (Flt.fin 2)) (Flt.fin 0) = true ∧
      refract Rat.sqrt (D := Dim.d2) ⟨Flt.fin 1, Flt.fin 0⟩ ⟨Flt.fin 0, Flt.fin 1⟩ (Flt.fin 2)
        = ⟨Flt.nan, Flt.nan⟩ :=
  have hk : Flt.lt (detail.compute_refract.k
        (dot (D := Dim.d2) (K := ℚ) ⟨Flt.fin 0, Flt.fin 1⟩ ⟨Flt.fin 1, Flt.fin 0⟩)
        (Flt.fin 2)) (Flt.fin 0) = true := by
    simp [detail.compute_refract.k, dot, detail.compute_dot.call, vec.mul, vec.zipWith]
    norm_num
  ⟨hk, (refract_negative_k_is_nan Rat.sqrt _ _ _ hk).1⟩

/-- C2 (as stated, false): at `I = (0,0,1)`, `N = (0,0,1)`, `eta = 2` it is not the case that
`k` is negative and `refract` returns `(0,0,0)`. -/
theorem refract_example_not_total_internal_reflection :
    ¬ (Flt.lt (detail.compute_refract.k
          (dot (D := Dim.d3) (K := ℚ) ⟨Flt.fin 0, Flt.fin 0, Flt.fin 1⟩
            ⟨Flt.fin 0, Flt.fin 0, Flt.fin 1⟩)
          (Flt.fin 2)) (Flt.fin 0) = true ∧
        refract Rat.sqrt (D := Dim.d3) ⟨Flt.fin 0, Flt.fin 0, Flt.fin 1⟩
          ⟨Flt.fin 0, Flt.fin 0, Flt.fin 1⟩ (Flt.fin 2)
          = ⟨Flt.fin 0, Flt.fin 0, Flt.fin 0⟩) := by
  rintro ⟨hk, -⟩
  simp [detail.compute_refract.k, dot, detail.compute_dot.call, vec.mul, vec.zipWith] at hk
  norm_num at hk

/-- C2 (amended): at `I = (0,0,1)`, `N = (0,0,1)`, `eta = 2` the value
`k = 1 - eta^2 * (1 - dot(N,I)^2)` is `1`, which is not negative, and `refract(I, N, eta)`
returns `(0,0,-1)`, for every square root function with `sqrt(1) = 1`. -/
theorem refract_example_value (sqrtK : K → K) (h1 : sqrtK 1 = 1) :
    detail.compute_refract.k
        (dot (D := Dim.d3) (K := K) ⟨Flt.fin 0, Flt.fin 0, Flt.fin 1⟩
          ⟨Flt.fin 0, Flt.fin 0, Flt.fin 1⟩)
        (Flt.fin 2) = Flt.fin 1 ∧
      Flt.lt (Flt.fin (1 : K)) (Flt.fin 0) = false ∧
      refract sqrtK (D := Dim.d3) ⟨Flt.fin 0, Flt.fin 0, Flt.fin 1⟩
        ⟨Flt.fin 0, Flt.fin 0, Flt.fin 1⟩ (Flt.fin 2)
        = ⟨Flt.fin 0, Flt.fin 0, Flt.fin (-1)⟩ := by
  have hk : detail.compute_refract.k
        (dot (D := Dim.d3) (K := K) ⟨Flt.fin 0, Flt.fin 0, Flt.fin 1⟩
          ⟨Flt.fin 0, Flt.fin 0, Flt.fin 1⟩)
        (Flt.fin 2) = Flt.fin 1 := by
    simp [detail.compute_refract.k, dot, detail.compute_dot.call, vec.mul, vec.zipWith]
  refine ⟨hk, by simp, ?_⟩
  simp only [refract, detail.compute_refract.call, hk]
  simp [dot, detail.compute_dot.call, vec.mul, vec.zipWith, vec.mulScalar, vec.sub,
    vec.scalarMul, vec.map, h1]
  norm_num

/-- Witness of the amended C2 over the rationals. -/
theorem refract_example_value_witness :
    Rat.sqrt 1 = 1 ∧
      refract Rat.sqrt (D := Dim.d3) ⟨Flt.fin 0, Flt.fin 0, Flt.fin 1⟩
        ⟨Flt.fin 0, Flt.fin 0, Flt.fin 1⟩ (Flt.fin 2)
        = ⟨Flt.fin 0, Flt.fin 0, Flt.fin (-1)⟩ :=
  ⟨rat_sqrt_one, (refract_example_value Rat.sqrt rat_sqrt_one).2.2⟩

/-- C3: with `d = dot(N,I)` and `k = 1 - eta^2 * (1 - d^2)`, whenever `k >= 0` the result of
`refract(I, N, eta)` equals `eta*I - (eta*d + sqrt(k))*N` component by component, for vectors
of each dimension 1 to 4 and for the scalar overload. -/
theorem refract_of_k_nonneg (sqrtK : K → K) :
    (∀ {D : Dim} (I N : vec D (Flt K)) (eta : Flt K),
      Flt.ge (detail.compute_refract.k (dot N I) eta) (Flt.fin 0) = true →
      refract sqrtK I N eta =
        vec.sub (vec.scalarMul eta I)
          (vec.scalarMul
            (eta * dot N I + Flt.sqrt sqrtK (detail.compute_refract.k (dot N I) eta)) N)) ∧
    (∀ (I N eta : Flt K),
      Flt.ge (detail.compute_refract.k (genType.dot N I) eta) (Flt.fin 0) = true →
      genType.refract sqrtK I N eta =
        eta * I -
          (eta * genType.dot N I +
            Flt.sqrt sqrtK (detail.compute_refract.k (genType.dot N I) eta)) * N) := by
  constructor
  · intro D I N eta hk
    simp only [refract, detail.compute_refract.call, hk, Flt.ofBool_true, vec.mulScalar_one]
  · intro I N eta hk
    simp only [genType.refract, hk, Flt.ofBool_true, Flt.mul_fin_one]

/-- Witness of C3 at `I = (3,4)`, `N = (0,1)`, `eta = 1/2`, where `k = 1 - (1 - 16)/4 >= 0`. -/
theorem refract_of_k_nonneg_witness :
    Flt.ge (detail.compute_refract.k
        (dot (D := Dim.d2) (K := ℚ) ⟨Flt.fin 0, Flt.fin 1⟩ ⟨Flt.fin 3, Flt.fin 4⟩)
        (Flt.fin (1 / 2))) (Flt.fin 0) = true ∧
      refract Rat.sqrt (D := Dim.d2) ⟨Flt.fin 3, Flt.fin 4⟩ ⟨Flt.fin 0, Flt.fin 1⟩
          (Flt.fin (1 / 2)) =
        vec.sub (D := Dim.d2)
          (vec.scalarMul (D := Dim.d2) (Flt.fin (1 / 2)) ⟨Flt.fin 3, Flt.fin 4⟩)
          (vec.scalarMul (D := Dim.d2)
            (Flt.fin (1 / 2) * dot (D := Dim.d2) ⟨Flt.fin 0, Flt.fin 1⟩ ⟨Flt.fin 3, Flt.fin 4⟩
              + Flt.sqrt Rat.sqrt (detail.compute_refract.k
                  (dot (D := Dim.d2) ⟨Flt.fin 0, Flt.fin 1⟩ ⟨Flt.fin 3, Flt.fin 4⟩)
                  (Flt.fin (1 / 2))))
            ⟨Flt.fin 0, Flt.fin 1⟩) :=
  have hk : Flt.ge (detail.compute_refract.k
        (dot (D := Dim.d2) (K := ℚ) ⟨Flt.fin 0, Flt.fin 1⟩ ⟨Flt.fin 3, Flt.fin 4⟩)
        (Flt.fin (1 / 2))) (Flt.fin 0) = true := by
    simp [detail.compute_refract.k, dot, detail.compute_dot.call, vec.mul, vec.zipWith]
    norm_num
  ⟨hk, (refract_of_k_nonneg Rat.sqrt).1 _ _ _ hk⟩

/-- C7: for every pair of 3-component vectors `x` and `y` (any element values, special values
included), `cross(x,y) = -cross(y,x)` component by component. -/
theorem cross_anticommutative (x y : tvec3 (Flt K)) :
    cross x y = vec.neg (D := Dim.d3) (cross y x) := by
  simp only [cross, detail.compute_cross.call, vec.neg, vec.map]
  rw [Flt.sub_eq_neg_sub (x.y * y.z), Flt.sub_eq_neg_sub (x.z * y.x),
    Flt.sub_eq_neg_sub (x.x * y.y)]

/-- C8: for every pair of points `p0`, `p1` of the same shape (vector of dimension 1 to 4, or
scalar), `distance(p0,p1) = distance(p1,p0)`, where `distance(p0,p1) = length(p1 - p0)`. -/
theorem distance_symmetric (sqrtK : K → K) :
    (∀ {D : Dim} (p0 p1 : vec D (Flt K)), distance sqrtK p0 p1 = distance sqrtK p1 p0) ∧
      (∀ p0 p1 : Flt K, genType.distance p0 p1 = genType.distance p1 p0) := by
  constructor
  · intro D p0 p1
    have h : dot (vec.sub p1 p0) (vec.sub p1 p0) = dot (vec.sub p0 p1) (vec.sub p0 p1) := by
      cases D <;>
        simp only [dot, detail.compute_dot.call, vec.sub, vec.mul, vec.zipWith] <;>
        simp only [Flt.sub_mul_self_swap]
    simp only [distance, detail.compute_distance.call, length, detail.compute_length.call, h]
  · intro p0 p1
    simp only [genType.distance, genType.length]
    rw [Flt.sub_eq_neg_sub, Flt.abs_neg_eq]

/-- C9: for every shape (scalar, vector of dimension 1, 2, 3 or 4) and every pair `x`, `y` of
that shape, `dot(x,y) = dot(y,x)`. -/
theorem dot_commutative :
    (∀ x y : Flt K, genType.dot x y = genType.dot y x) ∧
      (∀ {D : Dim} (x y : vec D (Flt K)), dot x y = dot y x) := by
  constructor
  · intro x y
    exact Flt.mul_swap x y
  · intro D x y
    cases D
    · exact Flt.mul_swap _ _
    · simp only [dot, detail.compute_dot.call, vec.mul, vec.zipWith]
      rw [Flt.mul_swap x.x, Flt.mul_swap x.y]
    · simp only [dot, detail.compute_dot.call, vec.mul, vec.zipWith]
      rw [Flt.mul_swap x.x, Flt.mul_swap x.y, Flt.mul_swap x.z]
    · simp only [dot, detail.compute_dot.call, vec.mul, vec.zipWith]
      rw [Flt.mul_swap x.x, Flt.mul_swap x.y, Flt.mul_swap x.z, Flt.mul_swap x.w]

/-- C10: for every vector `v` of dimension 1 to 4, `length(v) = sqrt(dot(v,v))`; and for every
plain scalar `x`, `length(x) = abs(x)`, which on a finite `x` is the absolute value of `x`. -/
theorem length_eq_sqrt_dot (sqrtK : K → K) :
    (∀ {D : Dim} (v : vec D (Flt K)), length sqrtK v = Flt.sqrt sqrtK (dot v v)) ∧
      (∀ x : Flt K, genType.length x = Flt.abs x) ∧
      (∀ x : K, genType.length (Flt.fin x) = Flt.fin |x|) :=
  ⟨fun _ => rfl, fun _ => rfl, fun _ => rfl⟩

/-- C11: for every triple of same-shape values `N`, `I`, `Nref` (vector of dimension 1 to 4, or
scalar), `faceforward(N, I, Nref)` returns `N` when `dot(Nref, I) < 0` and `-N` otherwise; in
particular when `dot(Nref, I)` is exactly `0` the result is `-N`. -/
theorem faceforward_cases :
    (∀ {D : Dim} (N I Nref : vec D (Flt K)),
        (Flt.lt (dot Nref I) (Flt.fin 0) = true → faceforward N I Nref = N) ∧
        (Flt.lt (dot Nref I) (Flt.fin 0) = false → faceforward N I Nref = vec.neg N) ∧
        (dot Nref I = Flt.fin 0 → faceforward N I Nref = vec.neg N)) ∧
      (∀ N I Nref : Flt K,
        (Flt.lt (genType.dot Nref I) (Flt.fin 0) = true → genType.faceforward N I Nref = N) ∧
        (Flt.lt (genType.dot Nref I) (Flt.fin 0) = false → genType.faceforward N I Nref = -N) ∧
        (genType.dot Nref I = Flt.fin 0 → genType.faceforward N I Nref = -N)) := by
  constructor
  · intro D N I Nref
    refine ⟨fun h => ?_, fun h => ?_, fun h => ?_⟩
    · simp [faceforward, detail.compute_faceforward.call, h]
    · simp [faceforward, detail.compute_faceforward.call, h]
    · simp [faceforward, detail.compute_faceforward.call, h]
  · intro N I Nref
    refine ⟨fun h => ?_, fun h => ?_, fun h => ?_⟩
    · simp [genType.faceforward, h]
    · simp [genType.faceforward, h]
    · simp [genType.faceforward, h]

/-- Witness of C11 at `N = Nref = (1,2)`, `I = (0,0)`, where `dot(Nref, I) = 0`. -/
theorem faceforward_cases_witness :
    dot (D := Dim.d2) (K := ℚ) ⟨Flt.fin 1, Flt.fin 2⟩ ⟨Flt.fin 0, Flt.fin 0⟩ = Flt.fin 0 ∧
      faceforward (D := Dim.d2) (K := ℚ) ⟨Flt.fin 1, Flt.fin 2⟩ ⟨Flt.fin 0, Flt.fin 0⟩
          ⟨Flt.fin 1, Flt.fin 2⟩
        = vec.neg (D := Dim.d2) ⟨Flt.fin 1, Flt.fin 2⟩ :=
  have h : dot (D := Dim.d2) (K := ℚ) ⟨Flt.fin 1, Flt.fin 2⟩ ⟨Flt.fin 0, Flt.fin 0⟩
      = Flt.fin 0 := by
    simp [dot, detail.compute_dot.call, vec.mul, vec.zipWith]
  ⟨h, (faceforward_cases.1 (D := Dim.d2) _ _ _).2.2 h⟩

/-- C12: the concrete cases `dot((1,0,0),(0,1,0)) = 0`, `cross((1,0,0),(0,1,0)) = (0,0,1)` and
`length((3,4)) = 5`, the last one for every square root function with `sqrt(25) = 5`. -/
theorem concrete_cases (sqrtK : K → K) (h25 : sqrtK 25 = 5) :
    dot (D := Dim.d3) (K := K) ⟨Flt.fin 1, Flt.fin 0, Flt.fin 0⟩
        ⟨Flt.fin 0, Flt.fin 1, Flt.fin 0⟩ = Flt.fin 0 ∧
      cross (K := K) ⟨Flt.fin 1, Flt.fin 0, Flt.fin 0⟩ ⟨Flt.fin 0, Flt.fin 1, Flt.fin 0⟩
        = ⟨Flt.fin 0, Flt.fin 0, Flt.fin 1⟩ ∧
      length sqrtK (D := Dim.d2) ⟨Flt.fin 3, Flt.fin 4⟩ = Flt.fin 5 := by
  refine ⟨?_, ?_, ?_⟩
  · simp [dot, detail.compute_dot.call, vec.mul, vec.zipWith]
  · simp [cross, detail.compute_cross.call]
  · have h : dot (D := Dim.d2) (K := K) ⟨Flt.fin 3, Flt.fin 4⟩ ⟨Flt.fin 3, Flt.fin 4⟩
        = Flt.fin 25 := by
      simp [dot, detail.compute_dot.call, vec.mul, vec.zipWith]
      norm_num
    simp only [length, detail.compute_length.call, h, Flt.sqrt_fin, h25]
    norm_num

/-- Witness of C12 over the rationals. -/
theorem concrete_cases_witness :
    Rat.sqrt 25 = 5 ∧ length Rat.sqrt (D := Dim.d2) ⟨Flt.fin 3, Flt.fin 4⟩ = Flt.fin 5 :=
  ⟨rat_sqrt_twenty_five, (concrete_cases Rat.sqrt rat_sqrt_twenty_five).2.2⟩

/-- C13: for every plain scalar `x`, `normalize(x)` is `-1` when `x < 0` and `+1` when `x > 0`,
and it is always one of `-1` and `+1`, never `0`. -/
theorem scalar_normalize_sign (x : Flt K) :
    (Flt.lt x (Flt.fin 0) = true → genType.normalize x = Flt.fin (-1)) ∧
      (Flt.lt (Flt.fin 0) x = true → genType.normalize x = Flt.fin 1) ∧
      (genType.normalize x = Flt.fin (-1) ∨ genType.normalize x = Flt.fin 1) ∧
      genType.normalize x ≠ Flt.fin 0 := by
  refine ⟨fun h => ?_, fun h => ?_, ?_, ?_⟩
  · simp [genType.normalize, h]
  · have h0 : Flt.lt x (Flt.fin 0) = false := by
      cases x with
      | fin a =>
        simp only [Flt.lt_fin_fin, decide_eq_true_eq] at h
        simp only [Flt.lt_fin_fin, decide_eq_false_iff_not, not_lt]
        exact h.le
      | nan => rfl
      | pinf => rfl
      | ninf => simp [Flt.lt] at h
    simp [genType.normalize, h0]
  · cases h : Flt.lt x (Flt.fin 0) <;> simp [genType.normalize, h]
  · cases h : Flt.lt x (Flt.fin 0) <;> simp [genType.normalize, h]

/-- Witness of C13 at `x = -3`. -/
theorem scalar_normalize_sign_witness :
    Flt.lt (Flt.fin (-3 : ℚ)) (Flt.fin 0) = true ∧
      genType.normalize (Flt.fin (-3 : ℚ)) = Flt.fin (-1) :=
  have h : Flt.lt (Flt.fin (-3 : ℚ)) (Flt.fin 0) = true := by
    simp
  ⟨h, (scalar_normalize_sign (Flt.fin (-3 : ℚ))).1 h⟩

/-- C18 (as stated, false): at `N = (+inf, +inf)`, `I = (+inf, -inf)` the value `dot(N, I)` is
`NaN`, `faceforward(N, I, N)` is `-N`, and `dot(faceforward(N, I, N), I)` is `NaN`, which is not
`<= 0`. -/
theorem faceforward_nan_dot_counterexample :
    ¬ (Flt.ge (Flt.fin 0)
        (dot (faceforward (D := Dim.d2) (K := ℚ) ⟨Flt.pinf, Flt.pinf⟩ ⟨Flt.pinf, Flt.ninf⟩
          ⟨Flt.pinf, Flt.pinf⟩) ⟨Flt.pinf, Flt.ninf⟩) = true) := by
  decide

/-- C18 (amended): for all vectors `N`, `I` of the same dimension (any element values) for which
`dot(N, I)` is not `NaN`, `dot(faceforward(N, I, N), I) <= 0`; and for all `N`, `I`, `Nref`,
`faceforward(-N, I, Nref) = -faceforward(N, I, Nref)`. -/
theorem faceforward_not_along_incident :
    (∀ {D : Dim} (N I : vec D (Flt K)), dot N I ≠ Flt.nan →
        Flt.ge (Flt.fin 0) (dot (faceforward N I N) I) = true) ∧
      (∀ {D : Dim} (N I Nref : vec D (Flt K)),
        faceforward (vec.neg N) I Nref = vec.neg (faceforward N I Nref)) := by
  constructor
  · intro D N I hn
    simp only [faceforward, detail.compute_faceforward.call]
    cases h : Flt.lt (dot N I) (Flt.fin 0)
    · simp only [Bool.false_eq_true, if_false, dot_neg_left]
      exact Flt.ge_zero_neg_of_not_lt_zero _ hn h
    · simp only [if_true]
      exact Flt.ge_zero_of_lt_zero _ h
  · intro D N I Nref
    simp only [faceforward, detail.compute_faceforward.call]
    split <;> rfl

/-- Witness of the amended C18 at `N = (1,2)`, `I = (3,4)`. -/
theorem faceforward_not_along_incident_witness :
    dot (D := Dim.d2) (K := ℚ) ⟨Flt.fin 1, Flt.fin 2⟩ ⟨Flt.fin 3, Flt.fin 4⟩ ≠ Flt.nan ∧
      Flt.ge (Flt.fin 0)
        (dot (faceforward (D := Dim.d2) (K := ℚ) ⟨Flt.fin 1, Flt.fin 2⟩ ⟨Flt.fin 3, Flt.fin 4⟩
          ⟨Flt.fin 1, Flt.fin 2⟩) ⟨Flt.fin 3, Flt.fin 4⟩) = true :=
  have h : dot (D := Dim.d2) (K := ℚ) ⟨Flt.fin 1, Flt.fin 2⟩ ⟨Flt.fin 3, Flt.fin 4⟩
      ≠ Flt.nan := by
    simp [dot, detail.compute_dot.call, vec.mul, vec.zipWith]
  ⟨h, faceforward_not_along_incident.1 (D := Dim.d2) _ _ h⟩

/-- C19 (as stated, false): at the 1-component point `a = b = (+inf)`, `distance(a, b)` is `NaN`:
it is neither `>= 0` nor `0`, although `a = b`. -/
theorem distance_of_infinite_point_counterexample :
    distance Rat.sqrt (D := Dim.d1) ⟨Flt.pinf⟩ ⟨Flt.pinf⟩ = Flt.nan ∧
      ¬ (Flt.ge (distance Rat.sqrt (D := Dim.d1) ⟨Flt.pinf⟩ ⟨Flt.pinf⟩) (Flt.fin 0) = true ∧
        (distance Rat.sqrt (D := Dim.d1) ⟨Flt.pinf⟩ ⟨Flt.pinf⟩ = Flt.fin 0 ↔
          (⟨Flt.pinf⟩ : vec Dim.d1 (Flt ℚ)) = ⟨Flt.pinf⟩)) := by
  have h : distance Rat.sqrt (D := Dim.d1) ⟨Flt.pinf⟩ ⟨Flt.pinf⟩ = Flt.nan := rfl
  refine ⟨h, ?_⟩
  rw [h]
  rintro ⟨h1, -⟩
  simp [Flt.ge] at h1

/-- C19 (amended): for all points `a`, `b` of the same dimension (any element values),
`distance(a, b)` is `NaN` or `>= 0`; and for every point `a` with finite components,
`distance(a, a) = 0`.  It holds for every square root function with `sqrt(0) = 0` and
`sqrt(x) >= 0` for `x >= 0`. -/
theorem distance_nonneg_and_zero_on_diagonal (sqrtK : K → K)
    (hs0 : ∀ x : K, 0 ≤ x → 0 ≤ sqrtK x) (h0 : sqrtK 0 = 0) :
    (∀ {D : Dim} (a b : vec D (Flt K)),
        distance sqrtK a b = Flt.nan ∨ Flt.ge (distance sqrtK a b) (Flt.fin 0) = true) ∧
      (∀ {D : Dim} (a : vec D K), distance sqrtK (vec.fin a) (vec.fin a) = Flt.fin 0) := by
  constructor
  · intro D a b
    exact Flt.sqrt_nonnegOrNan sqrtK hs0 _
  · intro D a
    rw [distance_fin, vec.dotK_sub_self, h0]

/-- Witness of the amended C19 over the rationals at `a = (3,4)`. -/
theorem distance_nonneg_and_zero_on_diagonal_witness :
    (∀ x : ℚ, 0 ≤ x → 0 ≤ Rat.sqrt x) ∧ Rat.sqrt 0 = 0 ∧
      distance Rat.sqrt (vec.fin (D := Dim.d2) (K := ℚ) ⟨3, 4⟩) (vec.fin (D := Dim.d2) ⟨3, 4⟩)
        = Flt.fin 0 :=
  ⟨fun x _ => Rat.sqrt_nonneg x, rat_sqrt_zero,
    (distance_nonneg_and_zero_on_diagonal Rat.sqrt (fun x _ => Rat.sqrt_nonneg x)
      rat_sqrt_zero).2 (D := Dim.d2) _⟩

/-- C20 (as stated, false): at the nonzero scalar `x = +inf` the scalar overload `normalize(x)`
is `+1` and the component of `normalize(vec1(x))` is `NaN`. -/
theorem scalar_normalize_at_infinity_counterexample :
    ¬ (genType.normalize (Flt.pinf : Flt ℚ)
        = tvec1.x (normalize Rat.sqrt (D := Dim.d1) ⟨Flt.pinf⟩)) := by
  decide

/-- C20 (amended): the single component of `normalize(vec1(x))` is `x * inversesqrt(x*x)` for
every `x`; at `x = 0` and at `x = +inf`, `x = -inf` the scalar overload and the vector path
differ: the scalar overload returns `+1`, `+1` and `-1`, the vector path returns `NaN`.  It holds
for every square root function with `sqrt(0) = 0`. -/
theorem scalar_normalize_differs_from_vec1 (sqrtK : K → K) (h0 : sqrtK 0 = 0) :
    (∀ x : Flt K, tvec1.x (normalize sqrtK (D := Dim.d1) ⟨x⟩)
        = x * Flt.inversesqrt sqrtK (x * x)) ∧
      (genType.normalize (Flt.fin (0 : K)) = Flt.fin 1 ∧
        tvec1.x (normalize sqrtK (D := Dim.d1) ⟨Flt.fin (0 : K)⟩) = Flt.nan) ∧
      (genType.normalize (Flt.pinf : Flt K) = Flt.fin 1 ∧
        tvec1.x (normalize sqrtK (D := Dim.d1) ⟨(Flt.pinf : Flt K)⟩) = Flt.nan) ∧
      (genType.normalize (Flt.ninf : Flt K) = Flt.fin (-1) ∧
        tvec1.x (normalize sqrtK (D := Dim.d1) ⟨(Flt.ninf : Flt K)⟩) = Flt.nan) := by
  have hvec : ∀ x : Flt K, tvec1.x (normalize sqrtK (D := Dim.d1) ⟨x⟩)
      = x * Flt.inversesqrt sqrtK (x * x) := fun _ => rfl
  refine ⟨hvec, ⟨?_, ?_⟩, ⟨?_, ?_⟩, ⟨?_, ?_⟩⟩
  · simp [genType.normalize]
  · rw [hvec]
    simp only [Flt.inversesqrt, Flt.fin_mul_fin, mul_zero, Flt.sqrt_fin, lt_irrefl, if_false, h0]
    show Flt.fin (0 : K) * Flt.div (Flt.fin 1) (Flt.fin 0) = Flt.nan
    simp only [Flt.div, if_true, one_ne_zero, if_false, zero_lt_one]
    show Flt.infTimes true (0 : K) = Flt.nan
    simp [Flt.infTimes]
  · rfl
  · rw [hvec]
    show Flt.pinf * Flt.div (Flt.fin (1 : K)) Flt.pinf = Flt.nan
    show Flt.infTimes true (0 : K) = Flt.nan
    simp [Flt.infTimes]
  · rfl
  · rw [hvec]
    show Flt.ninf * Flt.div (Flt.fin (1 : K)) Flt.pinf = Flt.nan
    show Flt.infTimes false (0 : K) = Flt.nan
    simp [Flt.infTimes]

/-- Witness of the amended C20 over the rationals. -/
theorem scalar_normalize_differs_from_vec1_witness :
    Rat.sqrt 0 = 0 ∧
      tvec1.x (normalize Rat.sqrt (D := Dim.d1) ⟨Flt.fin (0 : ℚ)⟩) = Flt.nan :=
  ⟨rat_sqrt_zero, (scalar_normalize_differs_from_vec1 Rat.sqrt rat_sqrt_zero).2.1.2⟩

end Claims

end glm
